import Mathlib

/-!
Shallow embedding of the MotorDiag serial-protocol client.

Source files embedded:
* `serial_ctrl.py` — class `SerialCtrl`: byte-channel operations
  (`SendBytes`, `ReceiveMessageBySize`, `ReceiveAvailableMessage`),
  the response matchers (`CheckResponse`, `CheckResponses`) and the retrying
  command sender (`SendFixedCommandRetry`).
* `motor_diag.py` — `DataReaderThread.run`: the 20-block stream decoder.

Modelling conventions:
* The serial line is modelled by `SState`: a `connected` flag, the `buffer`
  of bytes that the device will deliver (latin-1 decodes bytes to chars
  bijectively, so `List Char` is faithful), and the log `written` of payloads
  passed to the OS-level write.
* A timed read of `n` bytes returns `buffer.take n`: when the stream holds
  fewer than `n` bytes the read times out and returns what arrived, exactly
  the pyserial contract the Python code relies on.
* The wall-clock timeout loops (`while current_millis() - iniTime < timeout_ms`)
  are given an explicit `fuel : Nat`: the number of loop iterations the
  timeout budget allows.  No other use of real time occurs.
* Python exceptions are modelled by `Except (PyExc × SState) _`; the error
  carries the state at the raise point (all raises in the source happen
  before any mutation).
-/

/-- Python exceptions that the embedded code can raise:
`ConnectionError("Device not connected.")` and the `ValueError`
raised by `min()` on an empty sequence. -/
inductive PyExc where
  | notConnected
  | valueError
deriving DecidableEq

/-- State of one `SerialCtrl` channel: connection flag, bytes the device
will deliver (in order), and the log of payloads written out. -/
structure SState where
  connected : Bool
  buffer : List Char
  written : List (List Char)
deriving DecidableEq

/-- `serial_ctrl.py` line 104 `ReceiveMessageBySize`: reads up to `size`
bytes (fewer on timeout), raising `ConnectionError` when not connected. -/
def ReceiveMessageBySize (size : Nat) (s : SState) :
    Except (PyExc × SState) (List Char × SState) :=
  if s.connected then
    .ok (s.buffer.take size, { s with buffer := s.buffer.drop size })
  else
    .error (.notConnected, s)

/-- `serial_ctrl.py` line 131 `ReceiveAvailableMessage`: drains and returns
everything currently buffered (possibly nothing). -/
def ReceiveAvailableMessage (s : SState) :
    Except (PyExc × SState) (List Char × SState) :=
  if s.connected then
    .ok (s.buffer, { s with buffer := [] })
  else
    .error (.notConnected, s)

/-- `serial_ctrl.py` line 61 `SendBytes`: raises `ConnectionError` when no
connection is open; otherwise writes the data.  The Python function has no
`return` statement, so its value is `None`, modelled as `(none : Option Nat)`
(the count of bytes written is only printed, never returned). -/
def SendBytes (data : List Char) (s : SState) :
    Except (PyExc × SState) (Option Nat × SState) :=
  if s.connected then
    .ok (none, { s with written := s.written ++ [data] })
  else
    .error (.notConnected, s)

/-- Python `needle in haystack` on strings: substring containment. -/
def containsSub (needle : List Char) : List Char → Bool
  | [] => needle.isEmpty
  | c :: t => needle.isPrefixOf (c :: t) || containsSub needle t

/-- The `while current_millis() - iniTime < timeout_ms` loop of
`serial_ctrl.py` `CheckResponse` (lines 162-168), with the remaining
iteration budget as fuel. -/
def checkResponseLoop (expected : List Char) :
    Nat → List Char → SState → Except (PyExc × SState) (Bool × SState)
  | 0, _, s => .ok (false, s)
  | fuel + 1, response, s =>
    match ReceiveMessageBySize 1 s with
    | .error es => .error es
    | .ok (a, s1) =>
      let response' := response ++ a
      if containsSub expected response' then .ok (true, s1)
      else checkResponseLoop expected fuel response' s1

/-- `serial_ctrl.py` line 152 `CheckResponse`: read `len(expected)` bytes,
succeed on exact equality, otherwise accumulate one byte at a time until the
accumulated response contains `expected` or the timeout budget is spent. -/
def CheckResponse (fuel : Nat) (expected : List Char) (s : SState) :
    Except (PyExc × SState) (Bool × SState) :=
  match ReceiveMessageBySize expected.length s with
  | .error es => .error es
  | .ok (response, s1) =>
    if response = expected then .ok (true, s1)
    else checkResponseLoop expected fuel response s1

/-- The timeout loop of `serial_ctrl.py` `CheckResponses` (lines 187-194):
read one byte, then return the first candidate contained in the
accumulated response, else keep looping while fuel remains. -/
def checkResponsesLoop (cands : List (List Char)) :
    Nat → List Char → SState → Except (PyExc × SState) (Option (List Char) × SState)
  | 0, _, s => .ok (none, s)
  | fuel + 1, response, s =>
    match ReceiveMessageBySize 1 s with
    | .error es => .error es
    | .ok (a, s1) =>
      let response' := response ++ a
      match cands.find? (fun c => containsSub c response') with
      | some c => .ok (some c, s1)
      | none => checkResponsesLoop cands fuel response' s1

/-- `serial_ctrl.py` line 173 `CheckResponses`: read `min(len(resp))` bytes,
return the first candidate equal to that chunk, else accumulate bytes and
return the first candidate contained in the accumulation; on timeout the
function returns `None` (`min()` of an empty candidate list raises
`ValueError`). -/
def CheckResponses (fuel : Nat) (cands : List (List Char)) (s : SState) :
    Except (PyExc × SState) (Option (List Char) × SState) :=
  match cands with
  | [] => .error (.valueError, s)
  | c :: cs =>
    let minLen := cs.foldl (fun m x => min m x.length) c.length
    match ReceiveMessageBySize minLen s with
    | .error es => .error es
    | .ok (response, s1) =>
      match (c :: cs).find? (fun e => response = e) with
      | some e => .ok (some e, s1)
      | none => checkResponsesLoop (c :: cs) fuel response s1

/-- `serial_ctrl.py` line 199 `SendFixedCommandRetry`: up to `retries`
attempts, each sending the command then matching the expected response;
the `try/except Exception` catches every exception an attempt raises, so the
function is total (it can only return `true` or `false`). -/
def SendFixedCommandRetry (fuel : Nat) (command expected : List Char) :
    Nat → SState → Bool × SState
  | 0, s => (false, s)
  | retries + 1, s =>
    match SendBytes command s with
    | .error (_, s1) => SendFixedCommandRetry fuel command expected retries s1
    | .ok (_, s1) =>
      match CheckResponse fuel expected s1 with
      | .error (_, s2) => SendFixedCommandRetry fuel command expected retries s2
      | .ok (ok?, s2) =>
        if ok? then (true, s2)
        else SendFixedCommandRetry fuel command expected retries s2

/-- Value of a hex digit, `motor_diag.py` line 68 `int(hex_value, 16)`
restricted to the digits the preceding character-class check admits. -/
def hexDigitVal (c : Char) : Nat :=
  if '0' ≤ c ∧ c ≤ '9' then c.toNat - '0'.toNat
  else if 'a' ≤ c ∧ c ≤ 'f' then c.toNat - 'a'.toNat + 10
  else if 'A' ≤ c ∧ c ≤ 'F' then c.toNat - 'A'.toNat + 10
  else 0

/-- `int(h, 16)` on a validated hex string. -/
def parseHexNat (l : List Char) : Nat :=
  l.foldl (fun acc c => 16 * acc + hexDigitVal c) 0

/-- `motor_diag.py` lines 70-73: two's-complement reinterpretation of the
unsigned 16-bit value. -/
def toSigned (u : Nat) : Int :=
  if u ≥ 0x8000 then (u : Int) - 0x10000 else (u : Int)

/-- One decoded sample: `motor_diag.py` lines 68-73 applied to one
4-character group. -/
def decodeSigned (h : List Char) : Int :=
  toSigned (parseHexNat h)

/-- `motor_diag.py` line 45: membership in `"0123456789ABCDEFabcdef"`. -/
def isHexChar (c : Char) : Bool :=
  "0123456789ABCDEFabcdef".toList.contains c

/-- `motor_diag.py` lines 63-75: the ten 4-character groups of one block's
payload, decoded in group order. -/
def decodeBlock (hexData : List Char) : List Int :=
  (List.range 10).map (fun idx => decodeSigned ((hexData.drop (idx * 4)).take 4))

/-- Python `f-string` `<{block_num:02d}:` digits part: decimal digits,
left-padded with `'0'` to width 2. -/
def twoDigitFormat (n : Nat) : List Char :=
  let ds := Nat.toDigits 10 n
  if ds.length < 2 then '0' :: ds else ds

/-- `motor_diag.py` line 33: the expected block header `<NN:`. -/
def headerChars (n : Nat) : List Char :=
  '<' :: (twoDigitFormat n ++ [':'])

/-- Outcome of one `DataReaderThread.run` invocation: exactly one of the
two Qt signals is emitted — `data_received` (success) or `error_occurred`
with the branch that produced it. -/
inductive ReadResult where
  | success (values : List Int)
  | headerMismatch (block : Nat)
  | nonHexData (block : Nat)
  | truncated (block : Nat) (got : Nat)
  | terminatorMismatch (block : Nat) (got : List Char)
  | recvError
deriving DecidableEq

/-- Discriminator for the success outcome. -/
def ReadResult.isSuccess : ReadResult → Bool
  | .success _ => true
  | _ => false

/-- `motor_diag.py` lines 83-85 `except Exception`: drain the channel and
emit the generic receive error; a raise inside the handler propagates. -/
def handleExc (es : PyExc × SState) :
    Except (PyExc × SState) (ReadResult × SState) :=
  match ReceiveAvailableMessage es.2 with
  | .error es2 => .error es2
  | .ok (_, s2) => .ok (.recvError, s2)

/-- The `for block_num in range(20)` loop of `DataReaderThread.run`
(`motor_diag.py` lines 31-75), unrolled by remaining block count:
`b` is `block_num`, `r` the number of blocks still to read, `values` the
accumulator.  Every channel-op exception lands in the `except` handler.
The `int()` parse (line 68) cannot raise here: the character-class check
(line 45) and the length check (line 50) have already validated every
4-character slice, so only channel exceptions remain. -/
def runFrom (fuel : Nat) :
    Nat → Nat → List Int → SState → Except (PyExc × SState) (ReadResult × SState)
  | _, 0, values, s => .ok (.success values, s)
  | b, r + 1, values, s =>
    match CheckResponse fuel (headerChars b) s with
    | .error es => handleExc es
    | .ok (okh, s1) =>
      if okh = false then
        match ReceiveAvailableMessage s1 with
        | .error es => handleExc es
        | .ok (_, s2) => .ok (.headerMismatch b, s2)
      else
        match ReceiveMessageBySize 40 s1 with
        | .error es => handleExc es
        | .ok (hexData, s2) =>
          if (hexData.all isHexChar) = false then
            match ReceiveAvailableMessage s2 with
            | .error es => handleExc es
            | .ok (_, s3) => .ok (.nonHexData b, s3)
          else if hexData.length ≠ 40 then
            match ReceiveAvailableMessage s2 with
            | .error es => handleExc es
            | .ok (_, s3) => .ok (.truncated b hexData.length, s3)
          else
            match ReceiveMessageBySize 1 s2 with
            | .error es => handleExc es
            | .ok (closing, s3) =>
              if closing ≠ ['>'] then
                match ReceiveAvailableMessage s3 with
                | .error es => handleExc es
                | .ok (_, s4) => .ok (.terminatorMismatch b closing, s4)
              else
                runFrom fuel (b + 1) r (values ++ decodeBlock hexData) s3

/-- `DataReaderThread.run`: 20 blocks starting from block 0 with an empty
accumulator. -/
def DataReaderThread.run (fuel : Nat) (s : SState) :
    Except (PyExc × SState) (ReadResult × SState) :=
  runFrom fuel 0 20 [] s

/-- The well-formed wire image of blocks `b, b+1, …, b+r-1` with payload
`p i` for block `i`: header, payload, terminator, concatenated. -/
def blocksStream (p : Nat → List Char) : Nat → Nat → List Char
  | _, 0 => []
  | b, r + 1 => headerChars b ++ p b ++ '>' :: blocksStream p (b + 1) r

/-- The samples blocks `b, …, b+r-1` decode to, in block order. -/
def blockVals (p : Nat → List Char) : Nat → Nat → List Int
  | _, 0 => []
  | b, r + 1 => decodeBlock (p b) ++ blockVals p (b + 1) r

lemma isPrefixOf_refl (l : List Char) : l.isPrefixOf l = true := by
  induction l with
  | nil => rfl
  | cons a t ih => simp [List.isPrefixOf, ih]

lemma containsSub_self (n : List Char) : containsSub n n = true := by
  cases n with
  | nil => rfl
  | cons a t => simp [containsSub, isPrefixOf_refl]

lemma isPrefixOf_take {n m : List Char} {k : Nat}
    (h : n.isPrefixOf (m.take k) = true) : n.isPrefixOf m = true := by
  induction n generalizing m k with
  | nil => cases m <;> rfl
  | cons a n' ih =>
    cases m with
    | nil => cases k <;> simp_all [List.isPrefixOf]
    | cons b m' =>
      cases k with
      | zero => simp [List.isPrefixOf] at h
      | succ k' =>
        simp only [List.take_succ_cons, List.isPrefixOf, Bool.and_eq_true] at h ⊢
        exact ⟨h.1, ih h.2⟩

lemma containsSub_take {n h : List Char} {k : Nat}
    (hc : containsSub n (h.take k) = true) : containsSub n h = true := by
  induction h generalizing k with
  | nil => simpa using hc
  | cons c t ih =>
    cases k with
    | zero =>
      simp only [List.take_zero, containsSub] at hc
      cases n with
      | nil => exact containsSub_self []
      | cons a n' => simp at hc
    | succ k' =>
      simp only [List.take_succ_cons, containsSub, Bool.or_eq_true] at hc ⊢
      rcases hc with hp | hs
      · exact Or.inl (isPrefixOf_take (k := k' + 1) (by simpa using hp))
      · exact Or.inr (ih hs)

lemma containsSub_drop {n h : List Char} {k : Nat}
    (hc : containsSub n (h.drop k) = true) : containsSub n h = true := by
  induction h generalizing k with
  | nil => simpa using hc
  | cons c t ih =>
    cases k with
    | zero => simpa using hc
    | succ k' =>
      simp only [List.drop_succ_cons] at hc
      have : containsSub n t = true := ih hc
      simp [containsSub, this]

lemma checkResponseLoop_shape (expected : List Char) :
    ∀ (fuel : Nat) (resp : List Char) (s : SState), s.connected = true →
    ∃ bl k, checkResponseLoop expected fuel resp s =
      .ok (bl, { s with buffer := s.buffer.drop k }) := by
  intro fuel
  induction fuel with
  | zero => exact fun resp s _ => ⟨false, 0, rfl⟩
  | succ fuel ih =>
    intro resp s hc
    simp only [checkResponseLoop, ReceiveMessageBySize, hc, if_true]
    by_cases hcc : containsSub expected (resp ++ s.buffer.take 1) = true
    · exact ⟨true, 1, by simp [hcc]⟩
    · rw [Bool.not_eq_true] at hcc
      obtain ⟨bl, k, heq⟩ := ih (resp ++ s.buffer.take 1)
        { s with buffer := s.buffer.drop 1 } (by simpa using hc)
      refine ⟨bl, 1 + k, ?_⟩
      simp only [hcc, Bool.false_eq_true, if_false]
      simp only [hc] at heq
      rw [heq]
      simp [List.drop_drop, Nat.add_comm]

lemma checkResponseLoop_false (expected : List Char) :
    ∀ (fuel : Nat) (resp : List Char) (s : SState), s.connected = true →
    containsSub expected (resp ++ s.buffer) = false →
    ∃ k, checkResponseLoop expected fuel resp s =
      .ok (false, { s with buffer := s.buffer.drop k }) := by
  intro fuel
  induction fuel with
  | zero => exact fun resp s _ _ => ⟨0, rfl⟩
  | succ fuel ih =>
    intro resp s hc hno
    simp only [checkResponseLoop, ReceiveMessageBySize, hc, if_true]
    have hcc : containsSub expected (resp ++ s.buffer.take 1) = false := by
      by_contra hne
      rw [Bool.not_eq_false, ← List.take_append] at hne
      exact absurd (containsSub_take hne) (by simp [hno])
    have hno' : containsSub expected ((resp ++ s.buffer.take 1) ++ s.buffer.drop 1) = false := by
      rw [List.append_assoc, List.take_append_drop]
      exact hno
    obtain ⟨k, heq⟩ := ih (resp ++ s.buffer.take 1)
      { s with buffer := s.buffer.drop 1 } (by simpa using hc) (by simpa using hno')
    refine ⟨1 + k, ?_⟩
    simp only [hcc, Bool.false_eq_true, if_false]
    simp only [hc] at heq
    rw [heq]
    simp [List.drop_drop, Nat.add_comm]

lemma CheckResponse_shape (fuel : Nat) (expected : List Char) (s : SState)
    (hc : s.connected = true) :
    ∃ bl k, CheckResponse fuel expected s =
      .ok (bl, { s with buffer := s.buffer.drop k }) := by
  simp only [CheckResponse, ReceiveMessageBySize, hc, if_true]
  by_cases he : s.buffer.take expected.length = expected
  · exact ⟨true, expected.length, by simp [he]⟩
  · obtain ⟨bl, k, heq⟩ := checkResponseLoop_shape expected fuel
      (s.buffer.take expected.length) { s with buffer := s.buffer.drop expected.length }
      (by simpa using hc)
    refine ⟨bl, expected.length + k, ?_⟩
    simp only [he, if_false]
    simp only [hc] at heq
    rw [heq]
    simp [List.drop_drop, Nat.add_comm]

lemma CheckResponse_exact (fuel : Nat) (expected rest : List Char) (s : SState)
    (hc : s.connected = true) (hb : s.buffer = expected ++ rest) :
    CheckResponse fuel expected s = .ok (true, { s with buffer := rest }) := by
  simp [CheckResponse, ReceiveMessageBySize, hc, hb, List.take_left, List.drop_left]

lemma CheckResponse_nomatch (fuel : Nat) (expected : List Char) (s : SState)
    (hc : s.connected = true) (hno : containsSub expected s.buffer = false) :
    ∃ k, CheckResponse fuel expected s =
      .ok (false, { s with buffer := s.buffer.drop k }) := by
  simp only [CheckResponse, ReceiveMessageBySize, hc, if_true]
  have he : ¬ (s.buffer.take expected.length = expected) := by
    intro h
    have : containsSub expected (s.buffer.take expected.length) = true := by
      rw [h]; exact containsSub_self expected
    exact absurd (containsSub_take this) (by simp [hno])
  have hno' : containsSub expected
      (s.buffer.take expected.length ++ s.buffer.drop expected.length) = false := by
    rw [List.take_append_drop]; exact hno
  obtain ⟨k, heq⟩ := checkResponseLoop_false expected fuel
    (s.buffer.take expected.length) { s with buffer := s.buffer.drop expected.length }
    (by simpa using hc) (by simpa using hno')
  refine ⟨expected.length + k, ?_⟩
  simp only [he, if_false]
  simp only [hc] at heq
  rw [heq]
  simp [List.drop_drop]

lemma runFrom_step (fuel b r : Nat) (values : List Int) (p rest : List Char) (s : SState)
    (hc : s.connected = true) (hb : s.buffer = headerChars b ++ p ++ '>' :: rest)
    (hlen : p.length = 40) (hhex : p.all isHexChar = true) :
    runFrom fuel b (r + 1) values s =
      runFrom fuel (b + 1) r (values ++ decodeBlock p) { s with buffer := rest } := by
  have h1 : CheckResponse fuel (headerChars b) s =
      .ok (true, { s with buffer := p ++ '>' :: rest }) :=
    CheckResponse_exact fuel (headerChars b) (p ++ '>' :: rest) s hc
      (by rw [hb, List.append_assoc])
  have h2 : ReceiveMessageBySize 40 { s with buffer := p ++ '>' :: rest } =
      .ok (p, { s with buffer := '>' :: rest }) := by
    simp only [ReceiveMessageBySize, hc, if_true]
    rw [← hlen, List.take_left, List.drop_left]
  have h3 : ReceiveMessageBySize 1 { s with buffer := '>' :: rest } =
      .ok (['>'], { s with buffer := rest }) := by
    simp [ReceiveMessageBySize, hc]
  simp only [runFrom, h1, h2, h3, hhex, hlen]
  simp

lemma runFrom_goodPrefix (fuel m : Nat) (p : Nat → List Char)
    (hlen : ∀ i, (p i).length = 40) (hhex : ∀ i, (p i).all isHexChar = true) :
    ∀ (r b : Nat) (values : List Int) (tail : List Char) (s : SState),
    s.connected = true → s.buffer = blocksStream p b r ++ tail →
    runFrom fuel b (r + m) values s =
      runFrom fuel (b + r) m (values ++ blockVals p b r) { s with buffer := tail } := by
  intro r
  induction r with
  | zero =>
    intro b values tail s hc hb
    simp only [blocksStream, List.nil_append] at hb
    simp only [Nat.zero_add, Nat.add_zero, blockVals, List.append_nil]
    rw [← hb]
  | succ r ih =>
    intro b values tail s hc hb
    have hb' : s.buffer = headerChars b ++ p b ++ '>' :: (blocksStream p (b + 1) r ++ tail) := by
      rw [hb]
      simp [blocksStream, List.append_assoc]
    have harith : r + 1 + m = (r + m) + 1 := by omega
    rw [harith, runFrom_step fuel b (r + m) values (p b) _ s hc hb' (hlen b) (hhex b)]
    rw [ih (b + 1) (values ++ decodeBlock (p b)) tail _ (by simpa using hc) (by simp)]
    simp only [blockVals, List.append_assoc]
    have : b + 1 + r = b + (r + 1) := by omega
    rw [this]

lemma handleExc_connected (e : PyExc) (t : SState) (hc : t.connected = true) :
    handleExc (e, t) = .ok (.recvError, { t with buffer := [] }) := by
  simp [handleExc, ReceiveAvailableMessage, hc]

lemma runFrom_fault_drains (fuel : Nat) :
    ∀ (r b : Nat) (values : List Int) (s : SState), s.connected = true →
    ∀ res s', runFrom fuel b r values s = .ok (res, s') →
    res.isSuccess = false → s'.buffer = [] ∧ s'.connected = true := by
  intro r
  induction r with
  | zero =>
    intro b values s hc res s' hrun hf
    simp only [runFrom, Except.ok.injEq, Prod.mk.injEq] at hrun
    rw [← hrun.1] at hf
    simp [ReadResult.isSuccess] at hf
  | succ r ih =>
    intro b values s hc res s' hrun hf
    obtain ⟨bl, k, hcr⟩ := CheckResponse_shape fuel (headerChars b) s hc
    rw [runFrom, hcr] at hrun
    cases bl with
    | false =>
      simp only [if_pos rfl, ReceiveAvailableMessage, hc, if_true,
        Except.ok.injEq, Prod.mk.injEq] at hrun
      rw [← hrun.2]
      exact ⟨rfl, rfl⟩
    | true =>
      simp only [Bool.true_eq_false, if_false, ReceiveMessageBySize, hc, if_true] at hrun
      by_cases hhx : (((s.buffer.drop k).take 40).all isHexChar) = false
      · simp only [hhx, if_true, ReceiveAvailableMessage, hc,
          Except.ok.injEq, Prod.mk.injEq] at hrun
        rw [← hrun.2]
        exact ⟨rfl, rfl⟩
      · rw [Bool.not_eq_false] at hhx
        simp only [hhx, Bool.true_eq_false, if_false] at hrun
        by_cases hln : ((s.buffer.drop k).take 40).length ≠ 40
        · rw [if_pos hln] at hrun
          injection hrun with h
          injection h with h1 h2
          rw [← h2]
          exact ⟨rfl, rfl⟩
        · rw [if_neg hln] at hrun
          by_cases hcl : ((s.buffer.drop k).drop 40).take 1 ≠ ['>']
          · rw [if_pos hcl] at hrun
            injection hrun with h
            injection h with h1 h2
            rw [← h2]
            exact ⟨rfl, rfl⟩
          · rw [if_neg hcl] at hrun
            exact ih (b + 1) (values ++ decodeBlock ((s.buffer.drop k).take 40))
              _ (by simp) res s' hrun hf

lemma runFrom_trunc39 (fuel b t : Nat) (values : List Int) (q : List Char) (s : SState)
    (hc : s.connected = true) (hb : s.buffer = headerChars b ++ q)
    (hq : q.length = 39) (hqh : q.all isHexChar = true) :
    runFrom fuel b (t + 1) values s = .ok (.truncated b 39, { s with buffer := [] }) := by
  have h1 : CheckResponse fuel (headerChars b) s = .ok (true, { s with buffer := q }) :=
    CheckResponse_exact fuel (headerChars b) q s hc hb
  have htake : q.take 40 = q := List.take_of_length_le (by omega)
  have hdrop : q.drop 40 = ([] : List Char) := List.drop_eq_nil_of_le (by omega)
  rw [runFrom, h1]
  simp only [ReceiveMessageBySize, hc, if_true, htake, hdrop]
  simp [hqh, hq, ReceiveAvailableMessage]

lemma runFrom_headerFail (fuel b t : Nat) (values : List Int) (s : SState)
    (hc : s.connected = true) (hno : containsSub (headerChars b) s.buffer = false) :
    runFrom fuel b (t + 1) values s = .ok (.headerMismatch b, { s with buffer := [] }) := by
  obtain ⟨k, h1⟩ := CheckResponse_nomatch fuel (headerChars b) s hc hno
  rw [runFrom, h1]
  simp [ReceiveAvailableMessage, hc]

lemma decodeBlock_length (hexData : List Char) : (decodeBlock hexData).length = 10 := by
  simp [decodeBlock]

lemma blockVals_length (p : Nat → List Char) :
    ∀ (r b : Nat), (blockVals p b r).length = 10 * r := by
  intro r
  induction r with
  | zero => intro b; simp [blockVals]
  | succ r ih =>
    intro b
    simp only [blockVals, List.length_append, decodeBlock_length, ih]
    omega

lemma blockVals_eq_flatMap (p : Nat → List Char) :
    ∀ (r b : Nat), blockVals p b r =
      (List.range' b r).flatMap (fun i => decodeBlock (p i)) := by
  intro r
  induction r with
  | zero => intro b; simp [blockVals]
  | succ r ih =>
    intro b
    rw [List.range'_succ]
    simp [blockVals, ih]

lemma containsSub_drop_false {n h : List Char} {k : Nat}
    (hno : containsSub n h = false) : containsSub n (h.drop k) = false := by
  cases hcc : containsSub n (h.drop k) with
  | false => rfl
  | true => exact absurd (containsSub_drop hcc) (by simp [hno])

lemma checkResponsesLoop_none (cands : List (List Char)) :
    ∀ (fuel : Nat) (resp : List Char) (s : SState), s.connected = true →
    (∀ c ∈ cands, containsSub c (resp ++ s.buffer) = false) →
    ∃ k, checkResponsesLoop cands fuel resp s =
      .ok (none, { s with buffer := s.buffer.drop k }) := by
  intro fuel
  induction fuel with
  | zero => exact fun resp s _ _ => ⟨0, rfl⟩
  | succ fuel ih =>
    intro resp s hc hno
    simp only [checkResponsesLoop, ReceiveMessageBySize, hc, if_true]
    have hfind : cands.find? (fun c => containsSub c (resp ++ s.buffer.take 1)) = none := by
      rw [List.find?_eq_none]
      intro c hcmem
      simp only [Bool.not_eq_true]
      by_contra hne
      rw [Bool.not_eq_false, ← List.take_append] at hne
      exact absurd (containsSub_take hne) (by simp [hno c hcmem])
    have hno' : ∀ c ∈ cands,
        containsSub c ((resp ++ s.buffer.take 1) ++ s.buffer.drop 1) = false := by
      intro c hcmem
      rw [List.append_assoc, List.take_append_drop]
      exact hno c hcmem
    obtain ⟨k, heq⟩ := ih (resp ++ s.buffer.take 1)
      { s with buffer := s.buffer.drop 1 } (by simp [hc]) (by simpa using hno')
    refine ⟨1 + k, ?_⟩
    simp only [hfind]
    simp only [hc] at heq
    rw [heq]
    simp [List.drop_drop, Nat.add_comm]

lemma checkResponsesLoop_mono (cands : List (List Char)) :
    ∀ (n : Nat) (resp : List Char) (s : SState) (m : Nat) (c : List Char) (s' : SState),
    n ≤ m → checkResponsesLoop cands n resp s = .ok (some c, s') →
    checkResponsesLoop cands m resp s = .ok (some c, s') := by
  intro n
  induction n with
  | zero =>
    intro resp s m c s' _ h
    exfalso
    simp [checkResponsesLoop] at h
  | succ n ih =>
    intro resp s m c s' hnm h
    obtain ⟨m', rfl⟩ : ∃ m', m = m' + 1 := ⟨m - 1, by omega⟩
    rw [checkResponsesLoop] at h ⊢
    cases hms : ReceiveMessageBySize 1 s with
    | error es =>
      rw [hms] at h
      simp at h
    | ok pair =>
      obtain ⟨a, s1⟩ := pair
      rw [hms] at h
      dsimp only at h ⊢
      cases hf : cands.find? (fun cand => containsSub cand (resp ++ a)) with
      | some cand =>
        rw [hf] at h
        exact h
      | none =>
        rw [hf] at h
        exact ih (resp ++ a) s1 m' c s' (by omega) h

lemma CheckResponses_none (fuel : Nat) (c : List Char) (cs : List (List Char)) (s : SState)
    (hc : s.connected = true)
    (hno : ∀ e ∈ c :: cs, containsSub e s.buffer = false) :
    ∃ k, CheckResponses fuel (c :: cs) s =
      .ok (none, { s with buffer := s.buffer.drop k }) := by
  simp only [CheckResponses, ReceiveMessageBySize, hc, if_true]
  have hfind : (c :: cs).find?
      (fun e => s.buffer.take (cs.foldl (fun m x => min m x.length) c.length) = e) = none := by
    rw [List.find?_eq_none]
    intro e hmem
    simp only [decide_eq_true_eq]
    intro heq
    have hcself : containsSub e
        (s.buffer.take (cs.foldl (fun m x => min m x.length) c.length)) = true := by
      rw [heq]
      exact containsSub_self e
    exact absurd (containsSub_take hcself) (by simp [hno e hmem])
  rw [hfind]
  have hno' : ∀ e ∈ c :: cs, containsSub e
      (s.buffer.take (cs.foldl (fun m x => min m x.length) c.length) ++
        s.buffer.drop (cs.foldl (fun m x => min m x.length) c.length)) = false := by
    intro e hmem
    rw [List.take_append_drop]
    exact hno e hmem
  obtain ⟨k, heq⟩ := checkResponsesLoop_none (c :: cs) fuel
    (s.buffer.take (cs.foldl (fun m x => min m x.length) c.length))
    { s with buffer := s.buffer.drop (cs.foldl (fun m x => min m x.length) c.length) }
    (by simp [hc]) (by simpa using hno')
  refine ⟨cs.foldl (fun m x => min m x.length) c.length + k, ?_⟩
  simp only [hc] at heq
  rw [heq]
  simp [List.drop_drop]

lemma sendRetry_notConnected (fuel : Nat) (command expected : List Char) :
    ∀ (retries : Nat) (s : SState), s.connected = false →
    SendFixedCommandRetry fuel command expected retries s = (false, s) := by
  intro retries
  induction retries with
  | zero => intro s _; rfl
  | succ r ih =>
    intro s hc
    rw [SendFixedCommandRetry]
    simp only [SendBytes, hc, Bool.false_eq_true, if_false]
    exact ih s hc

lemma sendRetry_failStep (fuel : Nat) (command expected : List Char) (r : Nat) (s : SState)
    (hc : s.connected = true) (hno : containsSub expected s.buffer = false) :
    ∃ k, SendFixedCommandRetry fuel command expected (r + 1) s =
      SendFixedCommandRetry fuel command expected r
        { s with buffer := s.buffer.drop k, written := s.written ++ [command] } := by
  obtain ⟨k, hcr⟩ := CheckResponse_nomatch fuel expected
    { s with written := s.written ++ [command] } (by simp [hc]) (by simpa using hno)
  refine ⟨k, ?_⟩
  rw [SendFixedCommandRetry]
  simp only [SendBytes, hc, if_true]
  simp only [hc] at hcr
  rw [hcr]
  simp

/-- C2: for every 4-character hexadecimal string `h`, the decoded sample
equals `int(h,16) - 0x10000` when `int(h,16) ≥ 0x8000` and `int(h,16)`
otherwise; in particular `"8000"` decodes to `-32768`, `"7FFF"` to `32767`
and `"0000"` to `0`. -/
theorem claim_C2 :
    (∀ h : List Char, h.length = 4 → h.all isHexChar = true →
      decodeSigned h = if parseHexNat h ≥ 0x8000 then (parseHexNat h : Int) - 0x10000
        else (parseHexNat h : Int)) ∧
    decodeSigned "8000".toList = -32768 ∧
    decodeSigned "7FFF".toList = 32767 ∧
    decodeSigned "0000".toList = 0 :=
  ⟨fun _ _ _ => rfl, by decide, by decide, by decide⟩

/-- Witness for C2 at the concrete group `"0001"`. -/
theorem claim_C2_witness :
    "0001".toList.length = 4 ∧ "0001".toList.all isHexChar = true ∧
    decodeSigned "0001".toList =
      if parseHexNat "0001".toList ≥ 0x8000 then (parseHexNat "0001".toList : Int) - 0x10000
        else (parseHexNat "0001".toList : Int) :=
  ⟨by decide, by decide, claim_C2.1 "0001".toList (by decide) (by decide)⟩

/-- C9 (amended): `SendBytes` raises `ConnectionError` (`NotConnected`)
whenever no connection is open; when a connection is open it writes the
bytes but returns `None` — the count of bytes written is only printed,
never returned. -/
theorem claim_C9 (data : List Char) (s : SState) :
    (s.connected = false → SendBytes data s = .error (.notConnected, s)) ∧
    (s.connected = true →
      SendBytes data s = .ok (none, { s with written := s.written ++ [data] })) := by
  constructor <;> intro hc <;> simp [SendBytes, hc]

/-- Counterexample for C9 as stated: on an open connection and a 6-byte
payload the returned value is `None`, not the byte count `6`. -/
theorem claim_C9_counterexample :
    SendBytes "abcdef".toList ⟨true, [], []⟩ =
      .ok (none, ⟨true, [], ["abcdef".toList]⟩) ∧
    (none : Option Nat) ≠ some ("abcdef".toList.length) :=
  ⟨rfl, by decide⟩

/-- Witness for C9 on a disconnected channel. -/
theorem claim_C9_witness :
    SendBytes ['a'] ⟨false, [], []⟩ = .error (.notConnected, ⟨false, [], []⟩) :=
  (claim_C9 ['a'] ⟨false, [], []⟩).1 rfl

/-- C10: `SendFixedCommandRetry` never propagates an exception: every
exception an attempt raises (including the `ConnectionError` from
`SendBytes` on a closed channel) is caught inside the per-attempt loop, and
after all attempts fail the function returns `false` — its result type in
this embedding is total (`Bool × SState`, no `Except`), and on a
disconnected channel every attempt is absorbed, leaving the state
untouched. -/
theorem claim_C10 (fuel : Nat) (command expected : List Char) (retries : Nat)
    (s : SState) (hc : s.connected = false) :
    SendFixedCommandRetry fuel command expected retries s = (false, s) :=
  sendRetry_notConnected fuel command expected retries s hc

/-- Witness for C10: two attempts on a disconnected channel. -/
theorem claim_C10_witness :
    SendFixedCommandRetry 3 "<FS>".toList "<FS>".toList 2 ⟨false, [], []⟩ =
      (false, ⟨false, [], []⟩) :=
  claim_C10 3 "<FS>".toList "<FS>".toList 2 ⟨false, [], []⟩ rfl

/-- C5: on every fault path of the block stream decoder (every outcome other
than `success`) the decoder has drained all available bytes before
returning, so the final buffer is empty and a subsequent
`ReceiveAvailableMessage` (drain) returns the empty string. -/
theorem claim_C5 (fuel : Nat) (s : SState) (hc : s.connected = true)
    (res : ReadResult) (s' : SState)
    (hrun : DataReaderThread.run fuel s = .ok (res, s'))
    (hfault : res.isSuccess = false) :
    s'.buffer = [] ∧ ReceiveAvailableMessage s' = .ok ([], s') := by
  obtain ⟨hbuf, hconn⟩ := runFrom_fault_drains fuel 20 0 [] s hc res s' hrun hfault
  obtain ⟨c, b, w⟩ := s'
  simp only at hbuf hconn
  subst hbuf hconn
  exact ⟨rfl, by simp [ReceiveAvailableMessage]⟩

/-- Witness for C5: a stream that fails the very first header check. -/
theorem claim_C5_witness :
    (⟨true, ['x'], []⟩ : SState).buffer = ['x'] ∧
    (⟨true, [], []⟩ : SState).buffer = [] ∧
    ReceiveAvailableMessage ⟨true, [], []⟩ = .ok ([], ⟨true, [], []⟩) :=
  ⟨rfl, (claim_C5 0 ⟨true, ['x'], []⟩ rfl (.headerMismatch 0) ⟨true, [], []⟩ rfl rfl).1.symm ▸ rfl,
    (claim_C5 0 ⟨true, ['x'], []⟩ rfl (.headerMismatch 0) ⟨true, [], []⟩ rfl rfl).2⟩

/-- C6: with `retries = 2` against a channel on which the expected response
never appears (it is not a substring of anything the channel will deliver),
`SendFixedCommandRetry` returns `false`, and the write log shows the command
bytes were sent exactly twice — once per attempt. -/
theorem claim_C6 (fuel : Nat) (command expected : List Char) (s : SState)
    (hc : s.connected = true) (hno : containsSub expected s.buffer = false) :
    ∃ s', SendFixedCommandRetry fuel command expected 2 s = (false, s') ∧
      s'.written = s.written ++ [command, command] := by
  obtain ⟨k1, h1⟩ := sendRetry_failStep fuel command expected 1 s hc hno
  obtain ⟨k2, h2⟩ := sendRetry_failStep fuel command expected 0
    { s with buffer := s.buffer.drop k1, written := s.written ++ [command] }
    (by simp [hc]) (by simpa using containsSub_drop_false hno)
  refine ⟨_, (h1.trans h2).trans (by rfl), ?_⟩
  simp

/-- Witness for C6: two failed attempts of `<CA:0>` against garbage. -/
theorem claim_C6_witness :
    ∃ s', SendFixedCommandRetry 0 "<CA:0>".toList "<CA:0>".toList 2
        ⟨true, "garbage".toList, []⟩ = (false, s') ∧
      s'.written = ([] : List (List Char)) ++ ["<CA:0>".toList, "<CA:0>".toList] :=
  claim_C6 0 "<CA:0>".toList "<CA:0>".toList ⟨true, "garbage".toList, []⟩ rfl (by decide)

/-- C7: with candidates `["<CA:0>", "<CA:1>"]` and incoming bytes
`"noise<CA:1>"`, the multi-candidate matcher returns `"<CA:1>"` for every
timeout budget of at least 5 loop iterations: matching is substring-based,
so the leading noise does not prevent the match. -/
theorem claim_C7 (fuel : Nat) (hfuel : 5 ≤ fuel) (w : List (List Char)) :
    CheckResponses fuel ["<CA:0>".toList, "<CA:1>".toList]
      ⟨true, "noise<CA:1>".toList, w⟩ =
      .ok (some "<CA:1>".toList, ⟨true, [], w⟩) := by
  have h5 : checkResponsesLoop ["<CA:0>".toList, "<CA:1>".toList] 5
      "noise<".toList ⟨true, "CA:1>".toList, w⟩ =
      .ok (some "<CA:1>".toList, ⟨true, [], w⟩) := rfl
  exact checkResponsesLoop_mono ["<CA:0>".toList, "<CA:1>".toList] 5
    "noise<".toList ⟨true, "CA:1>".toList, w⟩ fuel "<CA:1>".toList
    ⟨true, [], w⟩ hfuel h5

/-- Witness for C7 at fuel 5 and an empty write log. -/
theorem claim_C7_witness :
    CheckResponses 5 ["<CA:0>".toList, "<CA:1>".toList]
      ⟨true, "noise<CA:1>".toList, []⟩ =
      .ok (some "<CA:1>".toList, ⟨true, [], []⟩) :=
  claim_C7 5 (by decide) []

/-- Counterexample for C8 as stated: on timeout `CheckResponses` returns
exactly `None` — two streams leaving different partial accumulated buffers
produce identical return values, so the partial buffer is not part of the
"no match" result (it is only printed). -/
theorem claim_C8_counterexample :
    CheckResponses 2 ["<CA:0>".toList] ⟨true, "XY".toList, []⟩ =
      .ok (none, ⟨true, [], []⟩) ∧
    CheckResponses 2 ["<CA:0>".toList] ⟨true, "Z".toList, []⟩ =
      .ok (none, ⟨true, [], []⟩) ∧
    "XY".toList ≠ "Z".toList :=
  ⟨rfl, rfl, by decide⟩

/-- C8 (amended): for every non-empty candidate list and every stream in
which no candidate ever appears as a substring, `CheckResponses` returns
`None` (the "no match" outcome); the partial accumulated buffer is not
included in the returned value. -/
theorem claim_C8_amended (fuel : Nat) (c : List Char) (cs : List (List Char))
    (s : SState) (hc : s.connected = true)
    (hno : ∀ e ∈ c :: cs, containsSub e s.buffer = false) :
    ∃ s', CheckResponses fuel (c :: cs) s = .ok (none, s') := by
  obtain ⟨k, h⟩ := CheckResponses_none fuel c cs s hc hno
  exact ⟨_, h⟩

/-- Witness for C8 on a concrete stream with no match. -/
theorem claim_C8_witness :
    ∃ s', CheckResponses 2 ["<CA:0>".toList] ⟨true, "xyz".toList, []⟩ =
      .ok (none, s') :=
  claim_C8_amended 2 "<CA:0>".toList [] ⟨true, "xyz".toList, []⟩ rfl (by decide)

/-- The all-`"0001"` payload used by the spec's end-to-end example. -/
def payloadOnes : List Char :=
  "0001000100010001000100010001000100010001".toList

/-- C3: when blocks 0–6 are well-formed but the stream then carries bytes in
which the header `<07:` never appears, the read reports the header-mismatch
fault for block 7 and delivers no samples (the samples decoded from blocks
0–6 are discarded), draining the channel. -/
theorem claim_C3 (fuel : Nat) (p : Nat → List Char)
    (hlen : ∀ i, (p i).length = 40) (hhex : ∀ i, (p i).all isHexChar = true)
    (rest : List Char) (hno : containsSub (headerChars 7) rest = false)
    (s : SState) (hc : s.connected = true)
    (hb : s.buffer = blocksStream p 0 7 ++ rest) :
    ∃ s', DataReaderThread.run fuel s = .ok (.headerMismatch 7, s') ∧
      s'.buffer = [] := by
  have h : runFrom fuel 0 20 [] s =
      runFrom fuel 7 13 ([] ++ blockVals p 0 7) { s with buffer := rest } :=
    runFrom_goodPrefix fuel 13 p hlen hhex 7 0 [] rest s hc hb
  have h2 := runFrom_headerFail fuel 7 12 ([] ++ blockVals p 0 7)
    { s with buffer := rest } (by simp [hc]) (by simpa using hno)
  exact ⟨_, h.trans h2, rfl⟩

/-- Witness for C3: seven good blocks followed by a block-8 header. -/
theorem claim_C3_witness :
    ∃ s', DataReaderThread.run 0
        ⟨true, blocksStream (fun _ => payloadOnes) 0 7 ++ "<08:".toList, []⟩ =
      .ok (.headerMismatch 7, s') ∧ s'.buffer = [] :=
  claim_C3 0 (fun _ => payloadOnes)
    (fun _ => by show payloadOnes.length = 40; decide)
    (fun _ => by show payloadOnes.all isHexChar = true; decide)
    "<08:".toList (by decide) _ rfl rfl

/-- Counterexample for C4 as stated: a block-0 payload of 39 hex characters
directly followed by the terminator `>` does NOT fault with
`Truncated(0, 39)` — the 40-byte payload read consumes the terminator, and
the character-class check (which runs first) reports non-hex data instead. -/
theorem claim_C4_counterexample :
    DataReaderThread.run 0
      ⟨true, "<00:000000000000000000000000000000000000000>".toList, []⟩ =
      .ok (.nonHexData 0, ⟨true, [], []⟩) ∧
    ReadResult.nonHexData 0 ≠ ReadResult.truncated 0 39 :=
  ⟨rfl, by decide⟩

/-- C4 (amended): a block-`i` payload of 39 hex characters after which the
stream ends (the read times out one byte short) faults with
`Truncated(i, 39)`; when the terminator immediately follows only 39 hex
characters the 40-byte read consumes it and the hex character-class check —
which the code runs before the length check — reports `NonHexData(i)`
instead.  Both checks are enforced on the raw received bytes. -/
theorem claim_C4_amended (fuel : Nat) (p : Nat → List Char)
    (hlen : ∀ i, (p i).length = 40) (hhex : ∀ i, (p i).all isHexChar = true)
    (i : Nat) (hi : i < 20) (q : List Char) (hq : q.length = 39)
    (hqh : q.all isHexChar = true) (s : SState) (hc : s.connected = true)
    (hb : s.buffer = blocksStream p 0 i ++ (headerChars i ++ q)) :
    ∃ s', DataReaderThread.run fuel s = .ok (.truncated i 39, s') ∧
      s'.buffer = [] := by
  have h : runFrom fuel 0 (i + (20 - i)) [] s =
      runFrom fuel (0 + i) (20 - i) ([] ++ blockVals p 0 i)
        { s with buffer := headerChars i ++ q } :=
    runFrom_goodPrefix fuel (20 - i) p hlen hhex i 0 [] (headerChars i ++ q) s hc hb
  have e1 : i + (20 - i) = 20 := by omega
  rw [e1] at h
  have e2 : 20 - i = (19 - i) + 1 := by omega
  rw [e2] at h
  have h2 := runFrom_trunc39 fuel (0 + i) (19 - i) ([] ++ blockVals p 0 i) q
    { s with buffer := headerChars i ++ q } (by simp [hc]) (by simp) hq hqh
  have e3 : 0 + i = i := by omega
  rw [e3] at h h2
  exact ⟨_, h.trans h2, rfl⟩

/-- Witness for C4 (amended): block 3's payload stops after 39 hex chars. -/
theorem claim_C4_amended_witness :
    ∃ s', DataReaderThread.run 0
        ⟨true, blocksStream (fun _ => payloadOnes) 0 3 ++
          (headerChars 3 ++ "000000000000000000000000000000000000000".toList), []⟩ =
      .ok (.truncated 3 39, s') ∧ s'.buffer = [] :=
  claim_C4_amended 0 (fun _ => payloadOnes)
    (fun _ => by show payloadOnes.length = 40; decide)
    (fun _ => by show payloadOnes.all isHexChar = true; decide)
    3 (by decide) "000000000000000000000000000000000000000".toList
    (by decide) (by decide) _ rfl rfl

set_option maxRecDepth 10000 in
/-- C1: a stream of 20 well-formed blocks decodes successfully into exactly
200 samples, ordered by block index and then by 4-character group within
the block; in particular, when every group is `"0001"` all 200 samples
equal `1`. -/
theorem claim_C1 (fuel : Nat) (p : Nat → List Char)
    (hlen : ∀ i, (p i).length = 40) (hhex : ∀ i, (p i).all isHexChar = true)
    (s : SState) (hc : s.connected = true) (hb : s.buffer = blocksStream p 0 20) :
    (∃ s', DataReaderThread.run fuel s =
      .ok (.success ((List.range 20).flatMap fun i => decodeBlock (p i)), s') ∧
      s'.buffer = []) ∧
    ((List.range 20).flatMap fun i => decodeBlock (p i)).length = 200 ∧
    ((∀ i, p i = payloadOnes) →
      ((List.range 20).flatMap fun i => decodeBlock (p i)) = List.replicate 200 1) := by
  have hbv : blockVals p 0 20 = (List.range 20).flatMap fun i => decodeBlock (p i) := by
    rw [blockVals_eq_flatMap, List.range_eq_range']
  have h : runFrom fuel 0 20 [] s =
      .ok (.success ([] ++ blockVals p 0 20), { s with buffer := [] }) :=
    runFrom_goodPrefix fuel 0 p hlen hhex 20 0 [] [] s hc (by rw [hb, List.append_nil])
  refine ⟨⟨{ s with buffer := [] }, ?_, rfl⟩, ?_, ?_⟩
  · rw [DataReaderThread.run, h, List.nil_append, hbv]
  · rw [← hbv, blockVals_length]
  · intro hp
    simp only [hp]
    decide

/-- Witness for C1: the all-`"0001"` stream at fuel 0. -/
theorem claim_C1_witness :
    ∃ s', DataReaderThread.run 0
        ⟨true, blocksStream (fun _ => payloadOnes) 0 20, []⟩ =
      .ok (.success ((List.range 20).flatMap fun _ => decodeBlock payloadOnes), s') ∧
      s'.buffer = [] :=
  (claim_C1 0 (fun _ => payloadOnes)
    (fun _ => by show payloadOnes.length = 40; decide)
    (fun _ => by show payloadOnes.all isHexChar = true; decide)
    ⟨true, blocksStream (fun _ => payloadOnes) 0 20, []⟩ rfl rfl).1
